import Mathlib

/-!
Shallow embedding of trax learning-rate schedules
(src/trax/supervised/lr_schedules.py) and proofs about them.

Modelling conventions:
- Python floats are modelled as real numbers; the final
  jnp.asarray(ret, dtype=jnp.float32) cast is modelled as the identity,
  and membership in the reals expresses finiteness (no inf/nan).
- Factor-name strings are modelled as lists of characters; splitting on
  the star character and stripping whitespace are embedded directly from
  the semantics of str.split and str.strip.
- A raised ValueError is modelled as the error branch of Except, carrying
  the formatted message.
- The one-entry Python dict literal is modelled as a one-entry association
  list, so the single-key output contract is visible in the model.
-/

namespace Trax

/-- Characters removed by Python str.strip() with no argument. -/
def pyIsSpace (c : Char) : Bool :=
  c = ' ' || c = '\t' || c = '\n' || c = '\r' || c = '\x0b' || c = '\x0c'

/-- Embedding of Python str.strip(): drop whitespace at both ends. -/
def pyStrip (l : List Char) : List Char :=
  ((l.dropWhile pyIsSpace).reverse.dropWhile pyIsSpace).reverse

/-- Embedding of Python str.split on a single star character. -/
def pySplitStar : List Char → List (List Char)
  | [] => [[]]
  | c :: cs =>
    if c = '*' then [] :: pySplitStar cs
    else
      match pySplitStar cs with
      | [] => [[c]]
      | t :: ts => (c :: t) :: ts

/-- Line 97 of lr_schedules.py: factors = [n.strip() for n in factors.split('*')]. -/
def parseFactors (s : String) : List (List Char) :=
  (pySplitStar s.toList).map pyStrip

/-- The six factor names recognized by the per-step evaluation loop. -/
def recognizedNames : List (List Char) :=
  ["constant".toList, "linear_warmup".toList, "rsqrt_decay".toList,
   "rsqrt_normalized_decay".toList, "decay_every".toList, "cosine_decay".toList]

/-- The message of the ValueError raised on an unknown factor name
(line 119: 'Unknown factor %s.' % name). -/
def unknownFactorMsg (name : List Char) : List Char :=
  "Unknown factor ".toList ++ name ++ ".".toList

/-- The body of the per-step loop of MultifactorSchedule (lines 101-119):
ret starts at 1.0 and each factor name multiplies or divides it; an
unrecognized name raises. The Python float modulo (progress % 1.0) on a
real progress value is progress minus its floor. -/
noncomputable def evalFactors (constant warmup_steps decay_factor steps_per_decay
    steps_per_cycle step : ℝ) : List (List Char) → ℝ → Except (List Char) ℝ
  | [], ret => .ok ret
  | name :: rest, ret =>
    if name = "constant".toList then
      evalFactors constant warmup_steps decay_factor steps_per_decay steps_per_cycle step
        rest (ret * constant)
    else if name = "linear_warmup".toList then
      evalFactors constant warmup_steps decay_factor steps_per_decay steps_per_cycle step
        rest (ret * min 1 (step / warmup_steps))
    else if name = "rsqrt_decay".toList then
      evalFactors constant warmup_steps decay_factor steps_per_decay steps_per_cycle step
        rest (ret / Real.sqrt (max step warmup_steps))
    else if name = "rsqrt_normalized_decay".toList then
      evalFactors constant warmup_steps decay_factor steps_per_decay steps_per_cycle step
        rest (ret * Real.sqrt warmup_steps / Real.sqrt (max step warmup_steps))
    else if name = "decay_every".toList then
      evalFactors constant warmup_steps decay_factor steps_per_decay steps_per_cycle step
        rest (ret * decay_factor ^ ⌊step / steps_per_decay⌋)
    else if name = "cosine_decay".toList then
      evalFactors constant warmup_steps decay_factor steps_per_decay steps_per_cycle step
        rest (ret * (0.5 * (1 + Real.cos (Real.pi *
          (max 0 ((step - warmup_steps) / steps_per_cycle) -
           ⌊max 0 ((step - warmup_steps) / steps_per_cycle)⌋)))))
    else .error (unknownFactorMsg name)

/-- The external trax.history.History collaborator.
Modelled from the spec: the History class is not under src/; per the spec
it is an externally owned store whose get(mode, metric) query returns a
fresh ordered oldest-first sequence of (step, value) pairs, and the
schedule code only reads it. -/
structure History where
  get : String → String → List (ℤ × ℝ)

/-- MultifactorSchedule (lines 66-123): parses the factors string at
construction and returns the per-step function. The history argument is
deleted (line 95). -/
noncomputable def MultifactorSchedule (history : History) (factors : String)
    (constant warmup_steps decay_factor steps_per_decay steps_per_cycle : ℝ) :
    ℝ → Except (List Char) (List (String × ℝ)) :=
  let _ := history
  let names := parseFactors factors
  fun step =>
    (evalFactors constant warmup_steps decay_factor steps_per_decay steps_per_cycle step
      names 1).map (fun ret => [("learning_rate", ret)])

/-- The default factors string of MultifactorSchedule (line 67). -/
def default_factors : String := "constant * linear_warmup * rsqrt_decay"

/-- MultifactorSchedule called with every keyword at its default except the
constant, as done by EvalAdjustingSchedule (lines 158 and 175). -/
noncomputable def MultifactorDefault (history : History) (constant : ℝ) :
    ℝ → Except (List Char) (List (String × ℝ)) :=
  MultifactorSchedule history default_factors constant 400 0.5 20000 100000

/-- The backward stall-detection loop of EvalAdjustingSchedule
(lines 160-173). The remaining metric values are kept newest-first, so the
Python metrics.pop() that removes the most recent remaining value is the
head of the list; the loop runs while more than one value remains. -/
noncomputable def adjustWalk (improvement_margin decrease_rate : ℝ)
    (steps_to_decrease : ℕ) : ℝ → ℕ → ℝ → List ℝ → ℝ
  | _, _, adjusted, [] => adjusted
  | _, _, adjusted, [_] => adjusted
  | cur, steps_without_improvement, adjusted, prev :: next :: rest =>
    let swi := if cur < prev * (1 + improvement_margin)
               then steps_without_improvement + 1 else 0
    let cur1 := if cur < prev * (1 + improvement_margin) then cur else prev
    if steps_to_decrease ≤ swi then
      adjustWalk improvement_margin decrease_rate steps_to_decrease
        prev 0 (adjusted / decrease_rate) (next :: rest)
    else
      adjustWalk improvement_margin decrease_rate steps_to_decrease
        cur1 swi adjusted (next :: rest)

/-- The adjusted constant computed by EvalAdjustingSchedule (lines 155-173)
from the oldest-first metric value sequence: with fewer than two points the
constant is returned unadjusted; otherwise the most recent value seeds cur
and the walk consumes the remaining values newest-first. -/
noncomputable def adjustedConstant (constant improvement_margin decrease_rate : ℝ)
    (steps_to_decrease : ℕ) (values : List ℝ) : ℝ :=
  match values.reverse with
  | [] => constant
  | [_] => constant
  | cur :: next :: rest =>
    adjustWalk improvement_margin decrease_rate steps_to_decrease
      cur 0 constant (next :: rest)

/-- EvalAdjustingSchedule (lines 127-175): queries the history, computes the
adjusted constant, and delegates to MultifactorSchedule with every other
parameter at its default. -/
noncomputable def EvalAdjustingSchedule (history : History) (constant : ℝ)
    (steps_to_decrease : ℕ) (improvement_margin decrease_rate : ℝ)
    (history_mode metric : String) :
    ℝ → Except (List Char) (List (String × ℝ)) :=
  let metrics := history.get history_mode metric
  MultifactorDefault history
    (adjustedConstant constant improvement_margin decrease_rate steps_to_decrease
      (metrics.map Prod.snd))

/-- State-passing form of EvalAdjustingSchedule, returning alongside the
schedule the external History object as it stands after construction: the
destructive pops act on the local list returned by the get query, so the
external store is handed back unchanged. -/
noncomputable def EvalAdjustingScheduleSt (history : History) (constant : ℝ)
    (steps_to_decrease : ℕ) (improvement_margin decrease_rate : ℝ)
    (history_mode metric : String) :
    (ℝ → Except (List Char) (List (String × ℝ))) × History :=
  (EvalAdjustingSchedule history constant steps_to_decrease improvement_margin
    decrease_rate history_mode metric, history)

/-- The environment captured by the closure returned from
MultifactorSchedule (lines 99-121): the parsed factor list and the five
numeric parameters, all bound at construction time. -/
structure SchedEnv where
  factors : List (List Char)
  constant : ℝ
  warmup_steps : ℝ
  decay_factor : ℝ
  steps_per_decay : ℝ
  steps_per_cycle : ℝ

/-- One invocation of the returned schedule closure, in explicit-state form:
the call reads the captured environment, computes the result from it and the
step alone, and hands the environment back; the closure body writes only the
local accumulator. -/
noncomputable def scheduleCall (env : SchedEnv) (step : ℝ) :
    Except (List Char) (List (String × ℝ)) × SchedEnv :=
  ((evalFactors env.constant env.warmup_steps env.decay_factor env.steps_per_decay
      env.steps_per_cycle step env.factors 1).map (fun ret => [("learning_rate", ret)]),
   env)

/-- Modelled from the spec: lr_functions.constant from the external
trax.supervised.lr_functions module (not under src/) — a schedule constant
in the step. -/
noncomputable def lr_functions_constant (value : ℝ) : ℝ → ℝ :=
  fun _ => value

/-- Modelled from the spec: lr_functions.warmup from the external
trax.supervised.lr_functions module (not under src/) — the learning rate
rises on the line connecting (0, 0) and (n_warmup_steps, max_value), then
stays at max_value. -/
noncomputable def lr_functions_warmup (n_warmup_steps max_value : ℝ) : ℝ → ℝ :=
  fun step =>
    if step < n_warmup_steps then max_value * (step / n_warmup_steps) else max_value

/-- Modelled from the spec: lr_functions.warmup_and_rsqrt_decay from the
external trax.supervised.lr_functions module (not under src/) — warmup
composed with reciprocal square-root decay after the warmup period. -/
noncomputable def lr_functions_warmup_and_rsqrt_decay (n_warmup_steps max_value : ℝ) :
    ℝ → ℝ :=
  fun step =>
    if step < n_warmup_steps then max_value * (step / n_warmup_steps)
    else max_value * Real.sqrt n_warmup_steps / Real.sqrt step

/-- Compatibility layer (lines 178-182): wraps an lr_functions schedule into
the one-entry mapping contract. -/
noncomputable def _from_lr_function (lr_fn : ℝ → ℝ) : ℝ → List (String × ℝ) :=
  fun step => [("learning_rate", lr_fn step)]

/-- The constant schedule constructor (lines 32-36); history is deleted. -/
noncomputable def constant (history : History) (value : ℝ) : ℝ → List (String × ℝ) :=
  let _ := history
  _from_lr_function (lr_functions_constant value)

/-- The warmup schedule constructor (lines 39-50); history is deleted. -/
noncomputable def warmup (history : History) (n_warmup_steps max_value : ℝ) :
    ℝ → List (String × ℝ) :=
  let _ := history
  _from_lr_function (lr_functions_warmup n_warmup_steps max_value)

/-- The warmup_and_rsqrt_decay schedule constructor (lines 53-58);
history is deleted. -/
noncomputable def warmup_and_rsqrt_decay (history : History)
    (n_warmup_steps max_value : ℝ) : ℝ → List (String × ℝ) :=
  let _ := history
  _from_lr_function (lr_functions_warmup_and_rsqrt_decay n_warmup_steps max_value)

end Trax

namespace Trax

/-! ### Helper lemmas -/

/-- The empty history: every query returns no points. -/
def emptyHistory : History := ⟨fun _ _ => []⟩

theorem evalFactors_cons_recognized (c ws df spd spc st : ℝ) (n : List Char)
    (rest : List (List Char)) (ret : ℝ) (hn : n ∈ recognizedNames) :
    ∃ r2, evalFactors c ws df spd spc st (n :: rest) ret =
      evalFactors c ws df spd spc st rest r2 := by
  simp only [recognizedNames, List.mem_cons, List.not_mem_nil, or_false] at hn
  rcases hn with h | h | h | h | h | h <;> subst h <;> exact ⟨_, rfl⟩

theorem evalFactors_cons_unrecognized (c ws df spd spc st : ℝ) (n : List Char)
    (rest : List (List Char)) (ret : ℝ) (hn : n ∉ recognizedNames) :
    evalFactors c ws df spd spc st (n :: rest) ret = .error (unknownFactorMsg n) := by
  simp only [recognizedNames, List.mem_cons, List.not_mem_nil, or_false, not_or] at hn
  obtain ⟨h1, h2, h3, h4, h5, h6⟩ := hn
  simp only [evalFactors, if_neg h1, if_neg h2, if_neg h3, if_neg h4, if_neg h5, if_neg h6]

theorem evalFactors_ok (c ws df spd spc st : ℝ) (names : List (List Char))
    (hall : ∀ n ∈ names, n ∈ recognizedNames) :
    ∀ ret, ∃ v, evalFactors c ws df spd spc st names ret = .ok v := by
  induction names with
  | nil => exact fun ret => ⟨ret, rfl⟩
  | cons n rest ih =>
    intro ret
    obtain ⟨r2, hr⟩ := evalFactors_cons_recognized c ws df spd spc st n rest ret
      (hall n (List.mem_cons_self n rest))
    rw [hr]
    exact ih (fun m hm => hall m (List.mem_cons_of_mem n hm)) r2

theorem evalFactors_error (c ws df spd spc st : ℝ) (names : List (List Char))
    (hbad : ∃ n ∈ names, n ∉ recognizedNames) :
    ∀ ret, ∃ n ∈ names, n ∉ recognizedNames ∧
      evalFactors c ws df spd spc st names ret = .error (unknownFactorMsg n) := by
  induction names with
  | nil => simp at hbad
  | cons m rest ih =>
    intro ret
    by_cases hm : m ∈ recognizedNames
    · have hrest : ∃ n ∈ rest, n ∉ recognizedNames := by
        obtain ⟨n, hn, hnr⟩ := hbad
        rcases List.mem_cons.mp hn with h | h
        · exact absurd (h ▸ hm) hnr
        · exact ⟨n, h, hnr⟩
      obtain ⟨r2, hr⟩ := evalFactors_cons_recognized c ws df spd spc st m rest ret hm
      obtain ⟨n, hn, hnr, he⟩ := ih hrest r2
      exact ⟨n, List.mem_cons_of_mem m hn, hnr, by rw [hr]; exact he⟩
    · exact ⟨m, List.mem_cons_self m rest, hm,
        evalFactors_cons_unrecognized c ws df spd spc st m rest ret hm⟩

theorem multifactor_ok_of_recognized (history : History) (f : String)
    (c ws df spd spc step : ℝ)
    (hall : ∀ n ∈ parseFactors f, n ∈ recognizedNames) :
    ∃ v, MultifactorSchedule history f c ws df spd spc step =
      .ok [("learning_rate", v)] := by
  obtain ⟨v, hv⟩ := evalFactors_ok c ws df spd spc step (parseFactors f) hall 1
  exact ⟨v, by simp [MultifactorSchedule, hv, Except.map]⟩

/-! ### Claim theorems -/

/-- C1: for a factors string with an unrecognized token, construction of the
schedule succeeds (the model of MultifactorSchedule is total) and every call
of the returned function, at any step, produces the ValueError carrying the
offending factor name; when every token is recognized, no call raises. -/
theorem multifactor_unknown_factor_error (history : History) (factors : String)
    (c ws df spd spc step : ℝ) :
    ((∃ n ∈ parseFactors factors, n ∉ recognizedNames) →
      ∃ n ∈ parseFactors factors, n ∉ recognizedNames ∧
        MultifactorSchedule history factors c ws df spd spc step =
          .error (unknownFactorMsg n)) ∧
    ((∀ n ∈ parseFactors factors, n ∈ recognizedNames) →
      ∃ v, MultifactorSchedule history factors c ws df spd spc step =
        .ok [("learning_rate", v)]) := by
  constructor
  · intro hbad
    obtain ⟨n, hn, hnr, he⟩ :=
      evalFactors_error c ws df spd spc step (parseFactors factors) hbad 1
    exact ⟨n, hn, hnr, by simp [MultifactorSchedule, he, Except.map]⟩
  · exact multifactor_ok_of_recognized history factors c ws df spd spc step

/-- Witness for C1: the formula "constant * bogus" yields the error carrying
the name bogus at step 7, and the all-recognized default formula yields an
ok learning-rate entry at step 7. -/
theorem multifactor_unknown_factor_error_witness :
    (∃ n ∈ parseFactors "constant * bogus", n ∉ recognizedNames ∧
      MultifactorSchedule emptyHistory "constant * bogus" 2 400 0.5 20000 100000 7 =
        .error (unknownFactorMsg n)) ∧
    (∃ v, MultifactorSchedule emptyHistory "constant * linear_warmup * rsqrt_decay"
        2 400 0.5 20000 100000 7 = .ok [("learning_rate", v)]) :=
  ⟨(multifactor_unknown_factor_error emptyHistory "constant * bogus"
      2 400 0.5 20000 100000 7).1 (by decide),
   (multifactor_unknown_factor_error emptyHistory "constant * linear_warmup * rsqrt_decay"
      2 400 0.5 20000 100000 7).2 (by decide)⟩

/-- C7: with factors "linear_warmup" the per-step multiplier is
min(1, step / warmup_steps); with warmup_steps 400 it is 0 at step 0, 1 at
step 400 and 1 at step 800. -/
theorem multifactor_linear_warmup_values (history : History)
    (c ws df spd spc step : ℝ) :
    MultifactorSchedule history "linear_warmup" c ws df spd spc step =
      .ok [("learning_rate", min 1 (step / ws))] ∧
    MultifactorSchedule history "linear_warmup" c 400 df spd spc 0 =
      .ok [("learning_rate", 0)] ∧
    MultifactorSchedule history "linear_warmup" c 400 df spd spc 400 =
      .ok [("learning_rate", 1)] ∧
    MultifactorSchedule history "linear_warmup" c 400 df spd spc 800 =
      .ok [("learning_rate", 1)] := by
  refine ⟨?_, ?_, ?_, ?_⟩
  · rw [show MultifactorSchedule history "linear_warmup" c ws df spd spc step =
        .ok [("learning_rate", 1 * min 1 (step / ws))] from rfl, one_mul]
  · rw [show MultifactorSchedule history "linear_warmup" c 400 df spd spc 0 =
        .ok [("learning_rate", 1 * min 1 ((0 : ℝ) / 400))] from rfl]
    norm_num
  · rw [show MultifactorSchedule history "linear_warmup" c 400 df spd spc 400 =
        .ok [("learning_rate", 1 * min 1 ((400 : ℝ) / 400))] from rfl]
    norm_num
  · rw [show MultifactorSchedule history "linear_warmup" c 400 df spd spc 800 =
        .ok [("learning_rate", 1 * min 1 ((800 : ℝ) / 400))] from rfl]
    norm_num

end Trax

namespace Trax

theorem adjustWalk_stall {m : ℝ} (r : ℝ) {std : ℕ} {cur prev : ℝ} {swi : ℕ}
    (h : cur < prev * (1 + m)) (hstd : ¬ std ≤ swi + 1)
    (adj next : ℝ) (rest : List ℝ) :
    adjustWalk m r std cur swi adj (prev :: next :: rest) =
      adjustWalk m r std cur (swi + 1) adj (next :: rest) := by
  simp only [adjustWalk, if_pos h, if_neg hstd]

theorem adjustWalk_stall_trigger {m : ℝ} (r : ℝ) {std : ℕ} {cur prev : ℝ} {swi : ℕ}
    (h : cur < prev * (1 + m)) (hstd : std ≤ swi + 1)
    (adj next : ℝ) (rest : List ℝ) :
    adjustWalk m r std cur swi adj (prev :: next :: rest) =
      adjustWalk m r std prev 0 (adj / r) (next :: rest) := by
  simp only [adjustWalk, if_pos h, if_pos hstd]

theorem adjustWalk_improve {m : ℝ} (r : ℝ) {std : ℕ} {cur prev : ℝ} {swi : ℕ}
    (h : ¬ cur < prev * (1 + m)) (hstd : ¬ std ≤ 0)
    (adj next : ℝ) (rest : List ℝ) :
    adjustWalk m r std cur swi adj (prev :: next :: rest) =
      adjustWalk m r std prev 0 adj (next :: rest) := by
  simp only [adjustWalk, if_neg h, if_neg hstd]

theorem adjustWalk_improve_trigger {m : ℝ} (r : ℝ) {std : ℕ} {cur prev : ℝ} {swi : ℕ}
    (h : ¬ cur < prev * (1 + m)) (hstd : std ≤ 0)
    (adj next : ℝ) (rest : List ℝ) :
    adjustWalk m r std cur swi adj (prev :: next :: rest) =
      adjustWalk m r std prev 0 (adj / r) (next :: rest) := by
  simp only [adjustWalk, if_neg h, if_pos hstd]

theorem adjustedConstant_short (c m r : ℝ) (std : ℕ) (values : List ℝ)
    (h : values.length < 2) : adjustedConstant c m r std values = c := by
  match values, h with
  | [], _ => rfl
  | [v], _ => rfl
  | v1 :: v2 :: t, h => simp at h; omega

/-- The four-point stalled history of the C2 scenario. -/
def history4 : History := ⟨fun _ _ => [(1, 0.5), (2, 0.5), (3, 0.5), (4, 0.5)]⟩

/-- C2: over the metric sequence 0.5, 0.5, 0.5, 0.5 with steps_to_decrease 2,
decrease_rate 2 and the default margin 0.001, the adjusted constant handed to
MultifactorSchedule is exactly 0.5: one decrease fires after two stalled
comparisons, the counter resets, and the single remaining comparison cannot
fire a second decrease. -/
theorem evalAdjusting_four_stalled_points_halves_constant :
    adjustedConstant 1 0.001 2 2 [0.5, 0.5, 0.5, 0.5] = 0.5 ∧
    EvalAdjustingSchedule history4 1 2 0.001 2 "eval" "metrics/accuracy" =
      MultifactorDefault history4 0.5 := by
  have hlt : (0.5 : ℝ) < 0.5 * (1 + 0.001) := by norm_num
  have h1 : ¬ (2 : ℕ) ≤ 0 + 1 := by norm_num
  have h2 : (2 : ℕ) ≤ 1 + 1 := by norm_num
  have e1 : adjustedConstant 1 0.001 2 2 [0.5, 0.5, 0.5, 0.5] =
      adjustWalk 0.001 2 2 0.5 0 1 [0.5, 0.5, 0.5] := rfl
  have s1 : adjustWalk 0.001 2 2 0.5 0 1 [0.5, 0.5, 0.5] =
      adjustWalk 0.001 2 2 0.5 1 1 [0.5, 0.5] := adjustWalk_stall 2 hlt h1 1 0.5 [0.5]
  have s2 : adjustWalk 0.001 2 2 0.5 1 1 [0.5, 0.5] =
      adjustWalk 0.001 2 2 0.5 0 (1 / 2) [0.5] := adjustWalk_stall_trigger 2 hlt h2 1 0.5 []
  have s3 : adjustWalk 0.001 2 2 0.5 0 (1 / 2) [0.5] = 1 / 2 := rfl
  have hw : adjustedConstant 1 0.001 2 2 [0.5, 0.5, 0.5, 0.5] = 0.5 := by
    rw [e1, s1, s2, s3]; norm_num
  refine ⟨hw, ?_⟩
  have e2 : EvalAdjustingSchedule history4 1 2 0.001 2 "eval" "metrics/accuracy" =
      MultifactorDefault history4 (adjustedConstant 1 0.001 2 2 [0.5, 0.5, 0.5, 0.5]) := rfl
  rw [e2, hw]

/-- Helper: the value of the pure cosine_decay formula at one step. -/
theorem cosine_multiplier_eq (c ws df spd spc step v : ℝ)
    (hv : 0.5 * (1 + Real.cos (Real.pi * (max 0 ((step - ws) / spc) -
      ⌊max 0 ((step - ws) / spc)⌋))) = v) :
    MultifactorSchedule emptyHistory "cosine_decay" c ws df spd spc step =
      .ok [("learning_rate", v)] := by
  rw [show MultifactorSchedule emptyHistory "cosine_decay" c ws df spd spc step =
      .ok [("learning_rate", 1 * (0.5 * (1 + Real.cos (Real.pi *
        (max 0 ((step - ws) / spc) - ⌊max 0 ((step - ws) / spc)⌋)))))] from rfl,
    one_mul, hv]

/-- C3 counterexample: with factors cosine_decay, steps_per_cycle 100000 and
warmup_steps 0, the multiplier at step 50000 (half cycle) equals exactly 1/2
and is therefore not approximately 0. -/
theorem cosine_decay_half_cycle_not_zero :
    MultifactorSchedule emptyHistory "cosine_decay" 0.1 0 0.5 20000 100000 50000 =
      .ok [("learning_rate", 1 / 2)] ∧ ¬ ((1 : ℝ) / 2 < 1 / 10) := by
  refine ⟨cosine_multiplier_eq 0.1 0 0.5 20000 100000 50000 (1 / 2) ?_, by norm_num⟩
  have hm : max (0 : ℝ) ((50000 - 0) / 100000) = 1 / 2 := by norm_num
  rw [hm]
  have hf : ⌊(1 : ℝ) / 2⌋ = 0 := by
    rw [Int.floor_eq_zero_iff]
    constructor <;> norm_num
  rw [hf]
  have h3 : Real.pi * ((1 : ℝ) / 2 - ((0 : ℤ) : ℝ)) = Real.pi / 2 := by
    push_cast; ring
  rw [h3, Real.cos_pi_div_two]
  norm_num

/-- C3 amended: with factors cosine_decay, steps_per_cycle 100000 and
warmup_steps 0, the multiplier 0.5 (1 + cos(pi (progress mod 1))) is 1 at
step 0, exactly 1/2 at step 50000 (half cycle), and 1 again at step 100000
(full cycle, periodicity); it approaches 0 only near the end of a cycle, not
at the half cycle. -/
theorem cosine_decay_cycle_values :
    MultifactorSchedule emptyHistory "cosine_decay" 0.1 0 0.5 20000 100000 0 =
      .ok [("learning_rate", 1)] ∧
    MultifactorSchedule emptyHistory "cosine_decay" 0.1 0 0.5 20000 100000 50000 =
      .ok [("learning_rate", 1 / 2)] ∧
    MultifactorSchedule emptyHistory "cosine_decay" 0.1 0 0.5 20000 100000 100000 =
      .ok [("learning_rate", 1)] := by
  refine ⟨cosine_multiplier_eq 0.1 0 0.5 20000 100000 0 1 ?_,
    cosine_multiplier_eq 0.1 0 0.5 20000 100000 50000 (1 / 2) ?_,
    cosine_multiplier_eq 0.1 0 0.5 20000 100000 100000 1 ?_⟩
  · have hm : max (0 : ℝ) ((0 - 0) / 100000) = 0 := by norm_num
    rw [hm]
    have hf : ⌊(0 : ℝ)⌋ = 0 := Int.floor_zero
    rw [hf]
    have h3 : Real.pi * ((0 : ℝ) - ((0 : ℤ) : ℝ)) = 0 := by push_cast; ring
    rw [h3, Real.cos_zero]
    norm_num
  · have hm : max (0 : ℝ) ((50000 - 0) / 100000) = 1 / 2 := by norm_num
    rw [hm]
    have hf : ⌊(1 : ℝ) / 2⌋ = 0 := by
      rw [Int.floor_eq_zero_iff]
      constructor <;> norm_num
    rw [hf]
    have h3 : Real.pi * ((1 : ℝ) / 2 - ((0 : ℤ) : ℝ)) = Real.pi / 2 := by
      push_cast; ring
    rw [h3, Real.cos_pi_div_two]
    norm_num
  · have hm : max (0 : ℝ) ((100000 - 0) / 100000) = 1 := by norm_num
    rw [hm]
    have hf : ⌊(1 : ℝ)⌋ = 1 := Int.floor_one
    rw [hf]
    have h3 : Real.pi * ((1 : ℝ) - ((1 : ℤ) : ℝ)) = 0 := by push_cast; ring
    rw [h3, Real.cos_zero]
    norm_num

/-- C4: with fewer than two (history_mode, metric) points,
EvalAdjustingSchedule returns the MultifactorSchedule built from the
unadjusted constant and the default factor formula. -/
theorem evalAdjusting_short_history_unadjusted (history : History) (c m r : ℝ)
    (std : ℕ) (mode metric : String)
    (hlen : (history.get mode metric).length < 2) :
    EvalAdjustingSchedule history c std m r mode metric =
      MultifactorDefault history c := by
  have hv : adjustedConstant c m r std ((history.get mode metric).map Prod.snd) = c :=
    adjustedConstant_short c m r std _ (by simpa using hlen)
  calc EvalAdjustingSchedule history c std m r mode metric
      = MultifactorDefault history
          (adjustedConstant c m r std ((history.get mode metric).map Prod.snd)) := rfl
    _ = MultifactorDefault history c := by rw [hv]

/-- Witness for C4: the empty history yields the unadjusted 0.1 schedule. -/
theorem evalAdjusting_short_history_unadjusted_witness :
    EvalAdjustingSchedule emptyHistory 0.1 20 0.001 1.5 "eval" "metrics/accuracy" =
      MultifactorDefault emptyHistory 0.1 :=
  evalAdjusting_short_history_unadjusted emptyHistory 0.1 0.001 1.5 20 "eval"
    "metrics/accuracy" (by decide)

end Trax

namespace Trax

theorem adjustedConstant_reverse_cons (c m r : ℝ) (std : ℕ) (values : List ℝ)
    (c0 : ℝ) (t : List ℝ) (h : values.reverse = c0 :: t) :
    adjustedConstant c m r std values = adjustWalk m r std c0 0 c t := by
  cases t with
  | nil => simp only [adjustedConstant, h, adjustWalk]
  | cons d t2 => simp only [adjustedConstant, h]

theorem adjustWalk_last_irrelevant (m r : ℝ) (std : ℕ) (x y : ℝ) :
    ∀ (l : List ℝ) (cur : ℝ) (swi : ℕ) (adj : ℝ),
      adjustWalk m r std cur swi adj (l ++ [x]) =
        adjustWalk m r std cur swi adj (l ++ [y]) := by
  intro l
  induction l with
  | nil => intro cur swi adj; rfl
  | cons a l2 ih =>
    intro cur swi adj
    cases l2 with
    | nil => simp only [List.cons_append, List.nil_append, adjustWalk]
    | cons b l3 =>
      simp only [List.cons_append] at ih ⊢
      simp only [adjustWalk]
      simp only [ih]

theorem adjustWalk_div_pow (m r : ℝ) (std : ℕ) :
    ∀ (rem : List ℝ) (cur : ℝ) (swi : ℕ) (adj : ℝ),
      ∃ k : ℕ, adjustWalk m r std cur swi adj rem = adj / r ^ k := by
  intro rem
  induction rem with
  | nil => intro cur swi adj; exact ⟨0, by simp [adjustWalk]⟩
  | cons prev rem2 ih =>
    intro cur swi adj
    cases rem2 with
    | nil => exact ⟨0, by simp [adjustWalk]⟩
    | cons next rest =>
      by_cases h : cur < prev * (1 + m)
      · by_cases hstd : std ≤ swi + 1
        · obtain ⟨k, hk⟩ := ih prev 0 (adj / r)
          refine ⟨k + 1, ?_⟩
          rw [adjustWalk_stall_trigger r h hstd adj next rest, hk, div_div, ← pow_succ']
        · obtain ⟨k, hk⟩ := ih cur (swi + 1) adj
          exact ⟨k, by rw [adjustWalk_stall r h hstd adj next rest, hk]⟩
      · by_cases hstd : std ≤ 0
        · obtain ⟨k, hk⟩ := ih prev 0 (adj / r)
          refine ⟨k + 1, ?_⟩
          rw [adjustWalk_improve_trigger r h hstd adj next rest, hk, div_div, ← pow_succ']
        · obtain ⟨k, hk⟩ := ih prev 0 adj
          exact ⟨k, by rw [adjustWalk_improve r h hstd adj next rest, hk]⟩

/-! ### Remaining claim theorems -/

/-- C5: every schedule constructor returns, at any step, a mapping with
exactly one key, learning_rate, whose value is a real scalar (membership in
the reals models finiteness; the float32 cast is modelled as the identity).
The lr_functions-based constructors are spec-modelled since that module is
not under src/. -/
theorem schedules_single_key_finite (history : History)
    (value n_warmup_steps max_value c ws df spd spc step margin rate : ℝ)
    (std : ℕ) (mode metric : String) (f : String)
    (_hstep : 0 ≤ step) (_hws : 0 < ws) (_hspd : 0 < spd) (_hspc : 0 < spc)
    (hf : ∀ n ∈ parseFactors f, n ∈ recognizedNames) :
    (∃ v : ℝ, constant history value step = [("learning_rate", v)]) ∧
    (∃ v : ℝ, warmup history n_warmup_steps max_value step = [("learning_rate", v)]) ∧
    (∃ v : ℝ, warmup_and_rsqrt_decay history n_warmup_steps max_value step =
      [("learning_rate", v)]) ∧
    (∃ v : ℝ, MultifactorSchedule history f c ws df spd spc step =
      .ok [("learning_rate", v)]) ∧
    (∃ v : ℝ, EvalAdjustingSchedule history c std margin rate mode metric step =
      .ok [("learning_rate", v)]) := by
  refine ⟨⟨_, rfl⟩, ⟨_, rfl⟩, ⟨_, rfl⟩,
    multifactor_ok_of_recognized history f c ws df spd spc step hf, ?_⟩
  have hall : ∀ n ∈ parseFactors default_factors, n ∈ recognizedNames := by decide
  obtain ⟨v, hv⟩ := multifactor_ok_of_recognized history default_factors
    (adjustedConstant c margin rate std ((history.get mode metric).map Prod.snd))
    400 0.5 20000 100000 step hall
  exact ⟨v, hv⟩

/-- Witness for C5 over concrete parameters and step 5. -/
theorem schedules_single_key_finite_witness :
    (∃ v : ℝ, constant emptyHistory 0.2 5 = [("learning_rate", v)]) ∧
    (∃ v : ℝ, warmup emptyHistory 400 0.3 5 = [("learning_rate", v)]) ∧
    (∃ v : ℝ, warmup_and_rsqrt_decay emptyHistory 400 0.3 5 = [("learning_rate", v)]) ∧
    (∃ v : ℝ, MultifactorSchedule emptyHistory "constant * linear_warmup * rsqrt_decay"
      0.1 400 0.5 20000 100000 5 = .ok [("learning_rate", v)]) ∧
    (∃ v : ℝ, EvalAdjustingSchedule emptyHistory 0.1 20 0.001 1.5 "eval"
      "metrics/accuracy" 5 = .ok [("learning_rate", v)]) :=
  schedules_single_key_finite emptyHistory 0.2 400 0.3 0.1 400 0.5 20000 100000 5
    0.001 1.5 20 "eval" "metrics/accuracy" "constant * linear_warmup * rsqrt_decay"
    (by norm_num) (by norm_num) (by norm_num) (by norm_num) (by decide)

/-- C6: construction of EvalAdjustingSchedule hands the external History
back unchanged — every query after construction returns the same ordered
sequence as before — and the returned schedule is the one computed from the
local copy of the metric sequence. -/
theorem evalAdjusting_preserves_history (history : History) (c m r : ℝ) (std : ℕ)
    (mode metric mode2 metric2 : String) :
    (EvalAdjustingScheduleSt history c std m r mode metric).2 = history ∧
    ((EvalAdjustingScheduleSt history c std m r mode metric).2).get mode2 metric2 =
      history.get mode2 metric2 ∧
    (EvalAdjustingScheduleSt history c std m r mode metric).1 =
      EvalAdjustingSchedule history c std m r mode metric :=
  ⟨rfl, rfl, rfl⟩

/-- C8: a schedule call reads only the environment captured at construction
and hands it back unchanged, so calling twice at the same step yields
identical output; the call computes exactly the MultifactorSchedule value. -/
theorem schedule_call_deterministic (env : SchedEnv) (step : ℝ) (history : History)
    (f : String) (c ws df spd spc : ℝ) :
    (scheduleCall env step).2 = env ∧
    (scheduleCall ((scheduleCall env step).2) step).1 = (scheduleCall env step).1 ∧
    (scheduleCall ⟨parseFactors f, c, ws, df, spd, spc⟩ step).1 =
      MultifactorSchedule history f c ws df spd spc step :=
  ⟨rfl, rfl, rfl⟩

/-- C9: the oldest history point never takes part in a comparison — the
adjusted constant does not depend on it — and with exactly two points the
walk performs no comparison at all, returning the schedule of the
fewer-than-two-points case with the unadjusted constant. -/
theorem oldest_point_unused (c m r : ℝ) (std : ℕ) (x y : ℝ) (rest : List ℝ)
    (history : History) (mode metric : String)
    (hne : rest ≠ []) (hlen : (history.get mode metric).length = 2) :
    adjustedConstant c m r std (x :: rest) = adjustedConstant c m r std (y :: rest) ∧
    EvalAdjustingSchedule history c std m r mode metric =
      MultifactorDefault history c := by
  constructor
  · obtain ⟨c0, t, ht⟩ : ∃ c0 t, rest.reverse = c0 :: t := by
      cases hrev : rest.reverse with
      | nil => exact absurd (List.reverse_eq_nil_iff.mp hrev) hne
      | cons c0 t => exact ⟨c0, t, rfl⟩
    have hx : (x :: rest).reverse = c0 :: (t ++ [x]) := by
      rw [List.reverse_cons, ht, List.cons_append]
    have hy : (y :: rest).reverse = c0 :: (t ++ [y]) := by
      rw [List.reverse_cons, ht, List.cons_append]
    rw [adjustedConstant_reverse_cons c m r std (x :: rest) c0 (t ++ [x]) hx,
        adjustedConstant_reverse_cons c m r std (y :: rest) c0 (t ++ [y]) hy]
    exact adjustWalk_last_irrelevant m r std x y t c0 0 c
  · obtain ⟨p1, p2, hp⟩ := List.length_eq_two.mp hlen
    have hv : adjustedConstant c m r std ((history.get mode metric).map Prod.snd) = c := by
      rw [hp]; rfl
    calc EvalAdjustingSchedule history c std m r mode metric
        = MultifactorDefault history
            (adjustedConstant c m r std ((history.get mode metric).map Prod.snd)) := rfl
      _ = MultifactorDefault history c := by rw [hv]

/-- The two-point history of the C9 witness. -/
def history2 : History := ⟨fun _ _ => [(1, 0.3), (2, 0.4)]⟩

/-- Witness for C9: changing the oldest of two remaining values does not
change the adjusted constant, and a two-point history yields the unadjusted
schedule. -/
theorem oldest_point_unused_witness :
    adjustedConstant 0.1 0.001 1.5 20 (0.9 :: [0.7]) =
      adjustedConstant 0.1 0.001 1.5 20 (0.2 :: [0.7]) ∧
    EvalAdjustingSchedule history2 0.1 20 0.001 1.5 "eval" "metrics/accuracy" =
      MultifactorDefault history2 0.1 :=
  oldest_point_unused 0.1 0.001 1.5 20 0.9 0.2 [0.7] history2 "eval"
    "metrics/accuracy" (List.cons_ne_nil 0.7 []) rfl

/-- C10: the adjusted constant is always constant divided by a natural power
of decrease_rate; hence for a positive constant and decrease_rate at least 1
it is positive and at most the constant. -/
theorem adjusted_constant_decomposition (c m r : ℝ) (std : ℕ) (values : List ℝ) :
    (∃ k : ℕ, adjustedConstant c m r std values = c / r ^ k) ∧
    (0 < c → 1 ≤ r →
      0 < adjustedConstant c m r std values ∧
        adjustedConstant c m r std values ≤ c) := by
  have hk : ∃ k : ℕ, adjustedConstant c m r std values = c / r ^ k := by
    cases hrev : values.reverse with
    | nil =>
      have hv : values = [] := List.reverse_eq_nil_iff.mp hrev
      subst hv
      exact ⟨0, by simp [adjustedConstant]⟩
    | cons c0 t =>
      rw [adjustedConstant_reverse_cons c m r std values c0 t hrev]
      exact adjustWalk_div_pow m r std t c0 0 c
  refine ⟨hk, fun hc hr => ?_⟩
  obtain ⟨k, hkk⟩ := hk
  rw [hkk]
  have hrpos : 0 < r ^ k := pow_pos (lt_of_lt_of_le one_pos hr) k
  exact ⟨div_pos hc hrpos, div_le_self hc.le (one_le_pow₀ hr)⟩

/-- Witness for C10 on a concrete three-point value sequence. -/
theorem adjusted_constant_decomposition_witness :
    (∃ k : ℕ, adjustedConstant 1 0.001 2 2 [0.5, 0.6, 0.4] = 1 / 2 ^ k) ∧
    (0 < adjustedConstant 1 0.001 2 2 [0.5, 0.6, 0.4] ∧
      adjustedConstant 1 0.001 2 2 [0.5, 0.6, 0.4] ≤ 1) :=
  ⟨(adjusted_constant_decomposition 1 0.001 2 2 [0.5, 0.6, 0.4]).1,
   (adjusted_constant_decomposition 1 0.001 2 2 [0.5, 0.6, 0.4]).2
     (by norm_num) (by norm_num)⟩

end Trax
